import Mathlib

/-!
Shallow embedding of `main.go` of the `video-dl` repository.

Go strings are modelled as lists of characters (`Str`); Go byte slices as
`List Nat`; fallible operations as `Except Unit`; the unbounded `for` loops
of `downloadOneVideo`, `downloadChannelVideos` and `pollForUpdates` as
fuel-indexed recursions whose fuel exhaustion is a distinguished artificial
outcome.  Network effects (RPC calls) are passed in as explicit response
functions, and a Go runtime panic (a failed type assertion) is a
distinguished outcome, separate from a returned error.
-/

/-- Go strings, modelled as lists of characters. -/
abbrev Str := List Char

/-- Whitespace as trimmed by `strings.TrimSpace` (ASCII part of
`unicode.IsSpace`; the exotic Unicode space characters are irrelevant to
every input considered here). -/
def goIsSpace (c : Char) : Bool :=
  c == ' ' || c == '\t' || c == '\n' || c == '\r' || c == '\x0b' || c == '\x0c'

/-- `strings.TrimSpace`. -/
def trimSpace (s : Str) : Str :=
  ((s.dropWhile goIsSpace).reverse.dropWhile goIsSpace).reverse

/-- `strings.TrimPrefix(s, pre)`: remove `pre` from the front of `s` when it
is present, otherwise return `s` unchanged. -/
def trimPre (pre s : Str) : Str :=
  if pre.isPrefixOf s then s.drop pre.length else s

/-- `strings.ToLower` (ASCII; Go's Unicode folding agrees on every input
considered here). -/
def toLowerStr (s : Str) : Str := s.map Char.toLower

/-- `strings.SplitN(s, " ", 2)`: split at the first space, if any. -/
def splitN2 (s : Str) : List Str :=
  match s.dropWhile (fun c => !(c == ' ')) with
  | [] => [s]
  | _ :: rest => [s.takeWhile (fun c => !(c == ' ')), rest]

/-- The string literal `https://t.me/`. -/
def httpsPre : Str := ['h','t','t','p','s',':','/','/','t','.','m','e','/']

/-- The string literal `http://t.me/`. -/
def httpPre : Str := ['h','t','t','p',':','/','/','t','.','m','e','/']

/-- The string literal `t.me/`. -/
def tmePre : Str := ['t','.','m','e','/']

/-- The string literal `download` (the command word). -/
def downloadWord : Str := ['d','o','w','n','l','o','a','d']

/-- The string literal `download ` (command word plus one space), the
dispatch key of `handleMessage`. -/
def downloadPre : Str := downloadWord ++ [' ']

/-- The string literal `video/` (MIME category of video documents). -/
def videoPre : Str := ['v','i','d','e','o','/']

/-- The string literal `finished` (the completion marker). -/
def finishedText : Str := ['f','i','n','i','s','h','e','d']

/-- `parseChannelUsername` of `main.go`: trim surrounding whitespace, then
apply `strings.TrimPrefix` for `https://t.me/`, then for `http://t.me/`,
then for `t.me/`, in that order. -/
def parseChannelUsername (link : Str) : Str :=
  trimPre tmePre (trimPre httpPre (trimPre httpsPre (trimSpace link)))

/-- One entry of `tg.Document.Attributes`: a video marker
(`tg.DocumentAttributeVideo`), a filename attribute
(`tg.DocumentAttributeFilename`), or any other attribute kind. -/
inductive DocAttr : Type
  | video : DocAttr
  | filename (name : Str) : DocAttr
  | otherAttr : DocAttr
deriving DecidableEq

/-- The fields of `tg.Document` that `main.go` reads (plus the declared
size, which it never reads). -/
structure Document : Type where
  id : Nat
  accessHash : Nat
  fileReference : List Nat
  mimeType : Str
  size : Nat
  attributes : List DocAttr
deriving DecidableEq

/-- `isVideoDocument` of `main.go`: the MIME type starts with `video/`, or
some attribute is `tg.DocumentAttributeVideo`. -/
def isVideoDocument (doc : Document) : Bool :=
  if videoPre.isPrefixOf doc.mimeType then true
  else doc.attributes.any fun a =>
    match a with
    | .video => true
    | _ => false

/-- `tg.MessageMedia` as inspected by `main.go`: a document media whose
document may be empty (`AsNotEmpty` failing is `document none`), or any
other media class. -/
inductive Media : Type
  | document (doc : Option Document) : Media
  | otherMedia : Media
deriving DecidableEq

/-- One element of a history response (`tg.MessageClass`): an ordinary
`tg.Message` (with identifier, text and optional media), or any other
message class (service message, empty message). -/
inductive MsgElem : Type
  | message (id : Nat) (text : Str) (media : Option Media) : MsgElem
  | other (id : Nat) : MsgElem
deriving DecidableEq

/-- The type assertion `x.(*tg.Message).ID`: yields the identifier for an
ordinary message and fails (panics at its use site) otherwise. -/
def asMessageID : MsgElem → Option Nat
  | .message id _ _ => some id
  | .other _ => none

/-- `handleMessage` of `main.go`, reduced to its dispatch decision: given
the message text, return `some ref` when a crawl for channel reference
`ref` is spawned, and `none` when the message is ignored. -/
def handleMessage (text : Str) : Option Str :=
  if text = [] then none
  else if downloadPre.isPrefixOf (toLowerStr text) then
    match splitN2 text with
    | _ :: link :: _ => some (parseChannelUsername link)
    | _ => none
  else none

/-- A `messages.getHistory` response for the self conversation, as inspected
by `pollForUpdates`: the cast target `*tg.MessagesMessages` with its message
list (newest first), or any other response class. -/
inductive SelfHistory : Type
  | messages (msgs : List MsgElem) : SelfHistory
  | otherType : SelfHistory
deriving DecidableEq

/-- The body of one iteration of the polling loop of `pollForUpdates`:
given the current `lastMsgID` and the `MessagesGetHistory` outcome for this
cycle, return the new `lastMsgID` and the channel references dispatched
this cycle, in dispatch order.  A fetch error or an unexpected response
class skips the cycle unchanged. -/
def pollCycle (lastMsgID : Nat) (resp : Except Unit SelfHistory) :
    Nat × List Str :=
  match resp with
  | .error _ => (lastMsgID, [])
  | .ok .otherType => (lastMsgID, [])
  | .ok (.messages msgs) =>
    let newMessages := msgs.reverse.filterMap fun e =>
      match e with
      | .message id text _ => if lastMsgID < id then some (id, text) else none
      | .other _ => none
    newMessages.foldl
      (fun st m =>
        (if st.1 < m.1 then m.1 else st.1,
         match handleMessage m.2 with
         | some ref => st.2 ++ [ref]
         | none => st.2))
      (lastMsgID, [])

/-- The polling loop of `pollForUpdates`, one entry of `histories` per
cycle: returns the per-cycle dispatched references. -/
def pollSteps : Nat → List (Except Unit SelfHistory) → List (List Str)
  | _, [] => []
  | lastMsgID, resp :: rest =>
    let r := pollCycle lastMsgID resp
    r.2 :: pollSteps r.1 rest

/-- `pollForUpdates` of `main.go`: first the one-time `UsersGetFullUser`
fetch of the operator's own identity (`getSelf`); on its failure the
goroutine returns and no cycle ever runs; otherwise the loop starts with
`lastMsgID = 0` (the `var lastMsgID int` zero value) and runs one cycle
per entry of `histories`. -/
def pollForUpdates (getSelf : Except Unit Nat)
    (histories : List (Except Unit SelfHistory)) : List (List Str) :=
  match getSelf with
  | .error _ => []
  | .ok _ => pollSteps 0 histories

/-- A `messages.getHistory` response for a channel, as inspected by
`downloadChannelVideos`: the cast target `*tg.MessagesChannelMessages` with
its message list (newest first), or any other response class. -/
inductive HistoryResult : Type
  | channelMessages (msgs : List MsgElem) : HistoryResult
  | otherType : HistoryResult
deriving DecidableEq

/-- A `tg.ChatClass` as inspected by the resolution switch of
`downloadChannelVideos`: a broadcast channel (`*tg.Channel`), a plain chat
(`*tg.Chat`), or any other class. -/
inductive ChatEnt : Type
  | channel (id : Nat) (accessHash : Nat) : ChatEnt
  | chat (id : Nat) : ChatEnt
  | otherChat : ChatEnt
deriving DecidableEq

/-- The errors `downloadChannelVideos` returns, in source order: directory
creation failed, `ContactsResolveUsername` failed, no chats resolved,
first chat is a plain `*tg.Chat`, first chat is of unknown class, and a
`MessagesGetHistory` failure inside the pagination loop. -/
inductive CrawlErr : Type
  | storage : CrawlErr
  | resolveRPC : CrawlErr
  | notFound : CrawlErr
  | wrongType : CrawlErr
  | unknownType : CrawlErr
  | history : CrawlErr
deriving DecidableEq

/-- Outcome of `downloadChannelVideos`: normal return with the list of
cursors passed to `MessagesGetHistory` (in request order) and the video
documents whose download was attempted (in attempt order); an error
return; a Go runtime panic (failed type assertion); or fuel exhaustion
(an artifact of the bounded model, not a program behaviour). -/
inductive CrawlOutcome : Type
  | ok (cursors : List Nat) (downloads : List Document) : CrawlOutcome
  | err (e : CrawlErr) : CrawlOutcome
  | panicked : CrawlOutcome
  | fuelOut : CrawlOutcome
deriving DecidableEq

/-- The inner per-page loop of `downloadChannelVideos`: iterate the page
from index `len-1` down to `0`, keep the ordinary messages whose media is
a non-empty document classified by `isVideoDocument`; these are exactly
the documents passed to `downloadOneVideo` (whose per-item errors are only
logged and never alter control flow). -/
def pageVideos (msgs : List MsgElem) : List Document :=
  msgs.reverse.filterMap fun e =>
    match e with
    | .message _ _ (some (.document (some doc))) =>
      if isVideoDocument doc then some doc else none
    | _ => none

/-- The pagination loop of `downloadChannelVideos`: fetch the page at
`offsetID`; a fetch error is returned; a response that is not
`*tg.MessagesChannelMessages`, or an empty page, ends the loop; otherwise
the page is processed, the oldest (last) element is type-asserted to an
ordinary message (panic on failure), the cursor becomes its identifier,
and the loop ends if that identifier is zero. -/
def crawlLoop (fetch : Nat → Except Unit HistoryResult) :
    Nat → Nat → CrawlOutcome
  | 0, _ => .fuelOut
  | fuel + 1, offsetID =>
    match fetch offsetID with
    | .error _ => .err .history
    | .ok .otherType => .ok [offsetID] []
    | .ok (.channelMessages []) => .ok [offsetID] []
    | .ok (.channelMessages (m :: ms)) =>
      let vids := pageVideos (m :: ms)
      match asMessageID ((m :: ms).getLast (List.cons_ne_nil m ms)) with
      | none => .panicked
      | some oldestID =>
        if oldestID = 0 then .ok [offsetID] vids
        else
          match crawlLoop fetch fuel oldestID with
          | .ok cs ds => .ok (offsetID :: cs) (vids ++ ds)
          | r => r

/-- The environment of one crawl task: the outcome of `ensureDir` on the
videos directory, the `ContactsResolveUsername` response for this task's
channel username (the chat list of the response), and the
`MessagesGetHistory` response per requested offset. -/
structure CrawlEnv : Type where
  ensureDir : Except Unit Unit
  resolve : Except Unit (List ChatEnt)
  fetchHistory : Nat → Except Unit HistoryResult

/-- `downloadChannelVideos` of `main.go`: first ensure the videos
directory, then resolve the username, require a non-empty chat list whose
first element is a broadcast channel, then paginate starting at cursor 0
with pages of up to 50 messages. -/
def downloadChannelVideos (env : CrawlEnv) (fuel : Nat) : CrawlOutcome :=
  match env.ensureDir with
  | .error _ => .err .storage
  | .ok _ =>
    match env.resolve with
    | .error _ => .err .resolveRPC
    | .ok [] => .err .notFound
    | .ok (c :: _) =>
      match c with
      | .channel _ _ => crawlLoop env.fetchHistory fuel 0
      | .chat _ => .err .wrongType
      | .otherChat => .err .unknownType

/-- `blockSize` of `downloadOneVideo`: 64 KiB. -/
def blockSize : Nat := 64 * 1024

/-- One chunk request of `downloadOneVideo` as issued and answered:
(requested byte offset, requested limit, bytes of the returned chunk). -/
abbrev ChunkReq := Nat × Nat × List Nat

/-- Outcome of `downloadOneVideo`: normal return with the full request
trace (in request order) and the final file contents; an error return
(`UploadGetFile` failure or a response that is not `*tg.UploadFile`); or
fuel exhaustion (a model artifact). -/
inductive DLResult : Type
  | ok (trace : List ChunkReq) (file : List Nat) : DLResult
  | err : DLResult
  | fuelOut : DLResult
deriving DecidableEq

/-- The transfer loop of `downloadOneVideo`: request a chunk of at most
`blockSize` bytes at `offset`; an empty chunk ends the loop before
writing; otherwise the chunk is appended to the file, the offset advances
by the chunk's length, and a chunk shorter than `blockSize` ends the
loop. -/
def downloadLoop (fetch : Nat → Nat → Except Unit (List Nat)) :
    Nat → Nat → DLResult
  | 0, _ => .fuelOut
  | fuel + 1, offset =>
    match fetch offset blockSize with
    | .error _ => .err
    | .ok bytes =>
      if bytes.length = 0 then .ok [(offset, blockSize, bytes)] []
      else if bytes.length < blockSize then .ok [(offset, blockSize, bytes)] bytes
      else
        match downloadLoop fetch fuel (offset + bytes.length) with
        | .ok tr f => .ok ((offset, blockSize, bytes) :: tr) (bytes ++ f)
        | r => r

/-- `downloadOneVideo` of `main.go`, transfer part: the loop starts at
byte offset 0 over a freshly created (truncated) file. -/
def downloadOneVideo (fetch : Nat → Nat → Except Unit (List Nat))
    (fuel : Nat) : DLResult :=
  downloadLoop fetch fuel 0

/-- The crawl-task goroutine spawned by `handleMessage`: run
`downloadChannelVideos` (success and failure are only logged), then edit
the originating message to `finished`; the edit's own failure is only
logged.  Returns `none` when the crawl panicked (the goroutine dies and no
edit is issued), else `some (texts of the edit requests issued, whether an
edit failure was logged)`. -/
def crawlTask (env : CrawlEnv) (fuel : Nat)
    (editResult : Except Unit Unit) : Option (List Str × Bool) :=
  match downloadChannelVideos env fuel with
  | .panicked => none
  | _ =>
    some ([finishedText],
      match editResult with
      | .error _ => true
      | .ok _ => false)

/-- The Boolean `List.isPrefixOf` agrees with the `<+:` relation. -/
lemma isPrefixOf_eq_true_iff : ∀ (p s : Str), p.isPrefixOf s = true ↔ p <+: s := by
  intro p
  induction p with
  | nil =>
    intro s
    simp [List.isPrefixOf]
  | cons a as ih =>
    intro s
    cases s with
    | nil => simp [List.isPrefixOf]
    | cons b bs =>
      simp only [List.isPrefixOf, Bool.and_eq_true, beq_iff_eq, ih bs,
        List.cons_prefix_cons]

/-- A list is a Boolean prefix of itself followed by anything. -/
lemma isPrefixOf_self_append (p r : Str) : p.isPrefixOf (p ++ r) = true := by
  rw [isPrefixOf_eq_true_iff]
  exact List.prefix_append p r

/-- `strings.TrimPrefix` removes a present leading copy of the prefix. -/
lemma trimPre_self_append (p r : Str) : trimPre p (p ++ r) = r := by
  simp [trimPre, isPrefixOf_self_append, List.drop_left]

/-- `strings.TrimPrefix` leaves a string without the prefix unchanged. -/
lemma trimPre_of_neg (p s : Str) (h : p.isPrefixOf s = false) : trimPre p s = s := by
  simp [trimPre, h]

/-- Dropping the non-space head of `w ++ ' ' :: rest` stops at the space. -/
lemma dropWhile_until_space (w rest : Str) (h : ∀ c ∈ w, (c == ' ') = false) :
    (w ++ ' ' :: rest).dropWhile (fun c => !(c == ' ')) = ' ' :: rest := by
  induction w with
  | nil => simp [List.dropWhile]
  | cons c w ih =>
    have hc := h c (List.mem_cons_self c w)
    simp [List.dropWhile, hc]
    exact ih fun d hd => h d (List.mem_cons_of_mem c hd)

/-- Taking the non-space head of `w ++ ' ' :: rest` yields `w`. -/
lemma takeWhile_until_space (w rest : Str) (h : ∀ c ∈ w, (c == ' ') = false) :
    (w ++ ' ' :: rest).takeWhile (fun c => !(c == ' ')) = w := by
  induction w with
  | nil => simp [List.takeWhile]
  | cons c w ih =>
    have hc := h c (List.mem_cons_self c w)
    simp [List.takeWhile, hc]
    exact ih fun d hd => h d (List.mem_cons_of_mem c hd)

/-- `strings.SplitN(s, " ", 2)` on a space-free word followed by a space
splits exactly there. -/
lemma splitN2_append_space (w rest : Str) (h : ∀ c ∈ w, (c == ' ') = false) :
    splitN2 (w ++ ' ' :: rest) = [w, rest] := by
  simp [splitN2, dropWhile_until_space w rest h, takeWhile_until_space w rest h]

/-- A word whose lowercasing is the literal `download` contains no space. -/
lemma no_space_of_toLower_downloadWord (w : Str) (h : toLowerStr w = downloadWord) :
    ∀ c ∈ w, (c == ' ') = false := by
  intro c hc
  rw [beq_eq_false_iff_ne]
  intro he
  subst he
  have hmem : Char.toLower ' ' ∈ downloadWord := by
    rw [← h]
    exact List.mem_map_of_mem Char.toLower hc
  revert hmem
  decide

/-- The polling loop runs one cycle per history response. -/
lemma pollSteps_length : ∀ (last : Nat) (hs : List (Except Unit SelfHistory)),
    (pollSteps last hs).length = hs.length
  | _, [] => rfl
  | last, resp :: rest => by
    simp [pollSteps, pollSteps_length (pollCycle last resp).1 rest]

/-- `http://t.me/` is never a leading piece of a string that starts with
`t.me/`. -/
lemma httpPre_not_pre_of_tme (r : Str) : httpPre.isPrefixOf (tmePre ++ r) = false := rfl

/-- C4 counterexample: on input `https://t.me/t.me/foo` the code removes
two known prefixes, first `https://t.me/` and then `t.me/`, returning
`foo`; under the claim (at most one prefix removed, first match wins) the
result would be `t.me/foo`. -/
theorem parseChannelUsername_strips_two :
    parseChannelUsername "https://t.me/t.me/foo".toList = "foo".toList ∧
    "foo".toList ≠ "t.me/foo".toList := by
  decide

/-- C4 amended: normalization trims surrounding whitespace and then
attempts the known prefixes sequentially (`https://t.me/`, then
`http://t.me/`, then `t.me/`), each removed at most once if present at
that stage — so a scheme prefix and a following bare `t.me/` can both be
removed; the four example inputs all yield `foo`, and inputs without any
of the prefixes are returned trimmed but otherwise unchanged. -/
theorem parseChannelUsername_amended :
    (parseChannelUsername "https://t.me/foo".toList = "foo".toList ∧
     parseChannelUsername "http://t.me/foo".toList = "foo".toList ∧
     parseChannelUsername "t.me/foo".toList = "foo".toList ∧
     parseChannelUsername "foo".toList = "foo".toList) ∧
    (∀ r : Str, trimSpace (httpsPre ++ r) = httpsPre ++ r →
      httpPre.isPrefixOf r = false → tmePre.isPrefixOf r = false →
      parseChannelUsername (httpsPre ++ r) = r) ∧
    (∀ r : Str, trimSpace (httpsPre ++ (tmePre ++ r)) = httpsPre ++ (tmePre ++ r) →
      tmePre.isPrefixOf r = false →
      parseChannelUsername (httpsPre ++ (tmePre ++ r)) = r) ∧
    (∀ s : Str, httpsPre.isPrefixOf (trimSpace s) = false →
      httpPre.isPrefixOf (trimSpace s) = false →
      tmePre.isPrefixOf (trimSpace s) = false →
      parseChannelUsername s = trimSpace s) := by
  refine ⟨by decide, ?_, ?_, ?_⟩
  · intro r htrim hhttp htme
    rw [parseChannelUsername, htrim, trimPre_self_append,
      trimPre_of_neg _ _ hhttp, trimPre_of_neg _ _ htme]
  · intro r htrim htme
    rw [parseChannelUsername, htrim, trimPre_self_append,
      trimPre_of_neg _ _ (httpPre_not_pre_of_tme r), trimPre_self_append]
  · intro s hhttps hhttp htme
    rw [parseChannelUsername, trimPre_of_neg _ _ hhttps,
      trimPre_of_neg _ _ hhttp, trimPre_of_neg _ _ htme]

/-- C4 witness: the amended theorem applied to the exotic input
`https://t.me/t.me/foo` (concretely, with `r = foo`). -/
theorem parseChannelUsername_amended_witness :
    parseChannelUsername (httpsPre ++ tmePre ++ "foo".toList) = "foo".toList :=
  parseChannelUsername_amended.2.2.1 "foo".toList (by decide) (by decide)

/-- Rename every filename attribute by `f`, leaving every other attribute
kind unchanged (used to state that filenames do not influence
classification). -/
def renameFilenames (f : Str → Str) : DocAttr → DocAttr
  | .filename n => .filename (f n)
  | a => a

/-- C7: `isVideoDocument` is true exactly when the declared content type
begins with `video/` or the attribute list contains the video-marking
attribute; the declared size and the filenames carried by filename
attributes have no influence on the result. -/
theorem isVideoDocument_classification (doc : Document) :
    (isVideoDocument doc = true ↔
      videoPre <+: doc.mimeType ∨ DocAttr.video ∈ doc.attributes) ∧
    (∀ sz : Nat, isVideoDocument { doc with size := sz } = isVideoDocument doc) ∧
    (∀ f : Str → Str,
      isVideoDocument { doc with attributes := doc.attributes.map (renameFilenames f) }
        = isVideoDocument doc) := by
  refine ⟨?_, fun sz => rfl, ?_⟩
  · unfold isVideoDocument
    split
    case isTrue h =>
      simp [(isPrefixOf_eq_true_iff videoPre doc.mimeType).mp h]
    case isFalse h =>
      have h' : ¬ (videoPre <+: doc.mimeType) := fun hp =>
        h ((isPrefixOf_eq_true_iff videoPre doc.mimeType).mpr hp)
      rw [List.any_eq_true]
      constructor
      · rintro ⟨a, ha, hm⟩
        refine Or.inr ?_
        cases a with
        | video => exact ha
        | filename n => exact Bool.noConfusion hm
        | otherAttr => exact Bool.noConfusion hm
      · rintro (hp | hv)
        · exact absurd hp h'
        · exact ⟨.video, hv, rfl⟩
  · intro f
    unfold isVideoDocument
    rw [List.any_map]
    have hco : ((fun a => match a with | DocAttr.video => true | _ => false) ∘ renameFilenames f)
        = (fun a => match a with | DocAttr.video => true | _ => false) := by
      funext a
      cases a <;> rfl
    rw [hco]

/-- A concrete video document: MIME type `video/mp4`, no attributes. -/
def vidDoc : Document :=
  ⟨1, 2, [3], videoPre ++ ['m','p','4'], 4, []⟩

/-- C7 witness: the classification theorem applied to the concrete
document with MIME type `video/mp4`. -/
theorem isVideoDocument_classification_witness : isVideoDocument vidDoc = true :=
  (isVideoDocument_classification vidDoc).1.mpr (Or.inl ⟨['m','p','4'], rfl⟩)

/-- C3 counterexample: for the message `download foo bar` the code
dispatches a crawl whose channel reference is the whole remainder
`foo bar`, not the first whitespace-delimited token `foo` (and the message
is not ignored either). -/
theorem handleMessage_uses_full_remainder :
    handleMessage "download foo bar".toList = some "foo bar".toList ∧
    some "foo bar".toList ≠ some "foo".toList ∧
    handleMessage "download foo bar".toList ≠ none := by
  decide

/-- C3 amended: dispatch matches the message text case-insensitively
against the prefix `download `; the channel reference is the entire
remainder of the text after the first space (normalized by
`parseChannelUsername`), not just its first whitespace-delimited token;
any message not matching is ignored, and a polled message advances the
high-water mark whether or not it dispatched. -/
theorem handleMessage_dispatch_amended :
    (∀ w rest : Str, toLowerStr w = downloadWord →
      handleMessage (w ++ ' ' :: rest) = some (parseChannelUsername rest)) ∧
    (∀ text : Str, downloadPre.isPrefixOf (toLowerStr text) = false →
      handleMessage text = none) ∧
    (∀ (last id : Nat) (text : Str) (media : Option Media), last < id →
      (pollCycle last (.ok (.messages [.message id text media]))).1 = id) := by
  refine ⟨?_, ?_, ?_⟩
  · intro w rest h
    have hw := no_space_of_toLower_downloadWord w h
    have h1 : (w ++ ' ' :: rest) ≠ [] := by simp
    simp only [toLowerStr] at h
    have hmap : toLowerStr (w ++ ' ' :: rest) = downloadWord ++ (' ' :: toLowerStr rest) := by
      simp only [toLowerStr, List.map_append, List.map_cons]
      rw [h, show Char.toLower ' ' = ' ' from by decide]
    have h2 : downloadPre.isPrefixOf (toLowerStr (w ++ ' ' :: rest)) = true := by
      have hsplit : downloadWord ++ (' ' :: toLowerStr rest) = downloadPre ++ toLowerStr rest := by
        simp [downloadPre]
      rw [hmap, hsplit]
      exact isPrefixOf_self_append _ _
    have h3 := splitN2_append_space w rest hw
    simp [handleMessage, h1, h2, h3]
  · intro text h
    by_cases htext : text = []
    · simp [handleMessage, htext]
    · simp [handleMessage, htext, h]
  · intro last id text media h
    simp [pollCycle, h]

/-- C3 witness: the amended theorem applied to the concrete message
`Download https://t.me/bar` (case-insensitive match, remainder
normalized). -/
theorem handleMessage_dispatch_amended_witness :
    handleMessage ("Download".toList ++ ' ' :: "https://t.me/bar".toList)
      = some (parseChannelUsername "https://t.me/bar".toList) :=
  handleMessage_dispatch_amended.1 "Download".toList "https://t.me/bar".toList (by decide)

/-- C5 counterexample: the poller's high-water mark is the zero value of
`var lastMsgID int`, not seeded by any fetch of recent self-messages; a
pre-existing command message (identifier 7, text `download foo`) present
in the very first poll cycle IS dispatched. -/
theorem pollForUpdates_redispatches_preexisting :
    pollForUpdates (.ok 1) [.ok (.messages [.message 7 "download foo".toList none])]
      = [["foo".toList]] ∧
    ["foo".toList] ≠ ([] : List Str) := by
  decide

/-- C5 amended: the only startup fetch is of the operator's own user
identity; the high-water mark starts at zero unseeded, so the first poll
cycle treats every fetched self-message with a positive identifier as new
and dispatches the matching ones. -/
theorem pollForUpdates_unseeded_amended (u id : Nat) (text ref : Str)
    (h1 : 0 < id) (h2 : handleMessage text = some ref) :
    pollForUpdates (.ok u) [.ok (.messages [.message id text none])] = [[ref]] := by
  simp [pollForUpdates, pollSteps, pollCycle, h1, h2]

/-- C5 witness: the amended theorem applied to the pre-existing message
`download foo` with identifier 7. -/
theorem pollForUpdates_unseeded_amended_witness :
    pollForUpdates (.ok 1) [.ok (.messages [.message 7 "download foo".toList none])]
      = [["foo".toList]] :=
  pollForUpdates_unseeded_amended 1 7 "download foo".toList "foo".toList
    (by decide) (by decide)

/-- A crawl environment in which both directory creation and resolution
would fail. -/
def envStorageAndResolveFail : CrawlEnv :=
  ⟨.error (), .ok [], fun _ => .ok .otherType⟩

/-- C6 counterexample: `downloadChannelVideos` ensures the videos
directory before resolving the reference, so a crawl whose reference is
unresolvable (empty chat list) and whose directory creation fails returns
the storage error, not a resolution error. -/
theorem downloadChannelVideos_storage_before_resolution :
    downloadChannelVideos envStorageAndResolveFail 1 = .err .storage ∧
    CrawlErr.storage ≠ CrawlErr.notFound ∧
    CrawlErr.storage ≠ CrawlErr.wrongType ∧
    CrawlErr.storage ≠ CrawlErr.resolveRPC := by
  decide

/-- C6 amended: the destination directory is ensured FIRST (`StorageError`
on failure, regardless of whether the reference would resolve); only when
that succeeds is the already-normalized reference resolved, yielding
`NotFoundError` on an empty entity list and `WrongEntityTypeError` when
the first entity is a plain chat; pagination starts only after both
steps succeed. -/
theorem downloadChannelVideos_order_amended (env : CrawlEnv) (fuel : Nat) :
    (env.ensureDir = .error () →
      downloadChannelVideos env fuel = .err .storage) ∧
    (env.ensureDir = .ok () → env.resolve = .error () →
      downloadChannelVideos env fuel = .err .resolveRPC) ∧
    (env.ensureDir = .ok () → env.resolve = .ok [] →
      downloadChannelVideos env fuel = .err .notFound) ∧
    (∀ (i : Nat) (rest : List ChatEnt), env.ensureDir = .ok () →
      env.resolve = .ok (.chat i :: rest) →
      downloadChannelVideos env fuel = .err .wrongType) ∧
    (∀ (a b : Nat) (rest : List ChatEnt), env.ensureDir = .ok () →
      env.resolve = .ok (.channel a b :: rest) →
      downloadChannelVideos env fuel = crawlLoop env.fetchHistory fuel 0) := by
  refine ⟨?_, ?_, ?_, ?_, ?_⟩
  · intro h
    simp [downloadChannelVideos, h]
  · intro h1 h2
    simp [downloadChannelVideos, h1, h2]
  · intro h1 h2
    simp [downloadChannelVideos, h1, h2]
  · intro i rest h1 h2
    simp [downloadChannelVideos, h1, h2]
  · intro a b rest h1 h2
    simp [downloadChannelVideos, h1, h2]

/-- C6 witness: the amended theorem applied to the environment in which
both directory creation and resolution fail. -/
theorem downloadChannelVideos_order_amended_witness :
    downloadChannelVideos envStorageAndResolveFail 1 = .err .storage :=
  (downloadChannelVideos_order_amended envStorageAndResolveFail 1).1 rfl

/-- C8: once a crawl task finishes by ordinary return (success or error
alike), exactly one edit of the originating message is issued, its text is
the literal `finished` in both cases, and a failing edit only flips the
logged flag: it is still issued exactly once, and the task swallows the
failure (it still completes with `some`). -/
theorem crawlTask_notification (env : CrawlEnv) (fuel : Nat)
    (h : downloadChannelVideos env fuel ≠ .panicked) :
    crawlTask env fuel (.ok ()) = some ([finishedText], false) ∧
    crawlTask env fuel (.error ()) = some ([finishedText], true) := by
  unfold crawlTask
  cases hr : downloadChannelVideos env fuel with
  | ok cs ds => exact ⟨rfl, rfl⟩
  | err e => exact ⟨rfl, rfl⟩
  | panicked => exact absurd hr h
  | fuelOut => exact ⟨rfl, rfl⟩

/-- C8 witness: the notification theorem applied to a concrete failing
crawl (storage error): the completion marker is still `finished`. -/
theorem crawlTask_notification_witness :
    crawlTask envStorageAndResolveFail 1 (.error ()) = some ([finishedText], true) :=
  (crawlTask_notification envStorageAndResolveFail 1 (by decide)).2

/-- C10: when the one-time startup fetch of the operator's own identity
fails, the polling goroutine returns with no cycle ever run (for every
possible sequence of history responses); when it succeeds, every history
response gives exactly one cycle — in particular a failing per-cycle fetch
yields an empty cycle and the loop continues, with the high-water mark
unchanged, on the remaining responses. -/
theorem pollForUpdates_self_fetch_fatal (u : Nat)
    (hs : List (Except Unit SelfHistory)) :
    pollForUpdates (.error ()) hs = [] ∧
    (pollForUpdates (.ok u) hs).length = hs.length ∧
    pollForUpdates (.ok u) (.error () :: hs) = [] :: pollSteps 0 hs := by
  refine ⟨rfl, ?_, ?_⟩
  · simp [pollForUpdates, pollSteps_length]
  · simp [pollForUpdates, pollSteps, pollCycle]

/-- Full specification of a successful run of the transfer loop from
offset `off`: the first request is at `off`; every request carries limit
`blockSize` and is answered by `fetch` with the recorded chunk;
consecutive request offsets advance by the previous chunk's length, every
non-final chunk is at least `blockSize` long, the final chunk is strictly
shorter than `blockSize`, and the file is the concatenation of the
recorded chunks. -/
lemma downloadLoop_ok_spec (fetch : Nat → Nat → Except Unit (List Nat)) :
    ∀ (fuel off : Nat) (tr : List ChunkReq) (file : List Nat),
      downloadLoop fetch fuel off = .ok tr file →
      (∃ c, tr[0]? = some (off, blockSize, c)) ∧
      (∀ e ∈ tr, e.2.1 = blockSize ∧ fetch e.1 blockSize = .ok e.2.2) ∧
      (∀ i x y, tr[i]? = some x → tr[i + 1]? = some y →
        y.1 = x.1 + x.2.2.length ∧ blockSize ≤ x.2.2.length) ∧
      (∀ x, tr.getLast? = some x → x.2.2.length < blockSize) ∧
      file = (tr.map fun e => e.2.2).flatten := by
  intro fuel
  induction fuel with
  | zero =>
    intro off tr file h
    simp [downloadLoop] at h
  | succ fuel ih =>
    intro off tr file h
    simp only [downloadLoop] at h
    cases hf : fetch off blockSize with
    | error e =>
      simp only [hf] at h
      exact DLResult.noConfusion h
    | ok bytes =>
      simp only [hf] at h
      by_cases hb0 : bytes.length = 0
      · rw [if_pos hb0] at h
        injection h with h1 h2
        subst h1
        subst h2
        refine ⟨⟨bytes, rfl⟩, ?_, ?_, ?_, ?_⟩
        · intro e he
          simp at he
          subst he
          exact ⟨rfl, hf⟩
        · intro i x y hx hy
          rcases i with _ | j <;> simp at hy
        · intro x hx
          simp at hx
          subst hx
          simp [hb0, blockSize]
        · simp [List.length_eq_zero.mp hb0]
      · rw [if_neg hb0] at h
        by_cases hb1 : bytes.length < blockSize
        · rw [if_pos hb1] at h
          injection h with h1 h2
          subst h1
          subst h2
          refine ⟨⟨bytes, rfl⟩, ?_, ?_, ?_, ?_⟩
          · intro e he
            simp at he
            subst he
            exact ⟨rfl, hf⟩
          · intro i x y hx hy
            rcases i with _ | j <;> simp at hy
          · intro x hx
            simp at hx
            subst hx
            exact hb1
          · simp
        · rw [if_neg hb1] at h
          cases hrec : downloadLoop fetch fuel (off + bytes.length) with
          | ok tr' f' =>
            simp only [hrec] at h
            injection h with h1 h2
            subst h1
            subst h2
            obtain ⟨⟨c', hc'⟩, hmem', hchain', hlast', hfile'⟩ :=
              ih (off + bytes.length) tr' f' hrec
            refine ⟨⟨bytes, by simp⟩, ?_, ?_, ?_, ?_⟩
            · intro e he
              rcases List.mem_cons.mp he with he | he
              · subst he
                exact ⟨rfl, hf⟩
              · exact hmem' e he
            · intro i x y hx hy
              cases i with
              | zero =>
                rw [List.getElem?_cons_zero] at hx
                injection hx with hx
                subst hx
                rw [List.getElem?_cons_succ, hc'] at hy
                injection hy with hy
                subst hy
                exact ⟨rfl, Nat.le_of_not_lt hb1⟩
              | succ j =>
                rw [List.getElem?_cons_succ] at hx hy
                exact hchain' j x y hx hy
            · intro x hx
              cases tr' with
              | nil => simp at hc'
              | cons hd tl =>
                rw [List.getLast?_cons_cons] at hx
                exact hlast' x hx
            · simp [hfile']
          | err =>
            simp only [hrec] at h
            exact DLResult.noConfusion h
          | fuelOut =>
            simp only [hrec] at h
            exact DLResult.noConfusion h

/-- C1: a successful single-attachment download starts at byte offset 0;
every chunk request carries the fixed limit `blockSize = 65536` and the
recorded trace lists all requests issued, in order; each request's offset
is the previous offset advanced by exactly the previous chunk's size;
every chunk before the last is at least 65536 bytes (so the transfer
stopped at the first empty or short chunk, issuing no request after it,
the final trace entry); and the destination file is the exact
concatenation, in request order, of all chunks received. -/
theorem downloadOneVideo_chunked (fetch : Nat → Nat → Except Unit (List Nat))
    (fuel : Nat) (tr : List ChunkReq) (file : List Nat)
    (h : downloadOneVideo fetch fuel = .ok tr file) :
    blockSize = 65536 ∧
    (∃ c, tr[0]? = some (0, blockSize, c)) ∧
    (∀ e ∈ tr, e.2.1 = blockSize ∧ fetch e.1 blockSize = .ok e.2.2) ∧
    (∀ i x y, tr[i]? = some x → tr[i + 1]? = some y →
      y.1 = x.1 + x.2.2.length ∧ blockSize ≤ x.2.2.length) ∧
    (∀ x, tr.getLast? = some x → x.2.2.length < blockSize) ∧
    file = (tr.map fun e => e.2.2).flatten := by
  have hs := downloadLoop_ok_spec fetch fuel 0 tr file h
  exact ⟨rfl, hs.1, hs.2.1, hs.2.2.1, hs.2.2.2.1, hs.2.2.2.2⟩

/-- A chunk server that always answers with the three bytes `[1, 2, 3]`
(a short chunk, so the transfer finishes after one request). -/
def fetchShort : Nat → Nat → Except Unit (List Nat) := fun _ _ => .ok [1, 2, 3]

/-- C1 witness: the download theorem applied to a concrete one-chunk
transfer: the file equals the concatenation of the received chunks and
the chunk size constant is 65536. -/
theorem downloadOneVideo_chunked_witness :
    ([1, 2, 3] : List Nat)
        = (([(0, blockSize, [1, 2, 3])] : List ChunkReq).map fun e => e.2.2).flatten ∧
    blockSize = 65536 :=
  ⟨(downloadOneVideo_chunked fetchShort 1 [(0, blockSize, [1, 2, 3])] [1, 2, 3]
      (by decide)).2.2.2.2.2,
   (downloadOneVideo_chunked fetchShort 1 [(0, blockSize, [1, 2, 3])] [1, 2, 3]
      (by decide)).1⟩

/-- After a successful directory step and a resolution to a broadcast
channel, the crawl is exactly the pagination loop started at cursor 0. -/
lemma crawl_resolved_eq (env : CrawlEnv) (a b : Nat) (rest : List ChatEnt)
    (fuel : Nat) (hdir : env.ensureDir = .ok ())
    (hres : env.resolve = .ok (.channel a b :: rest)) :
    downloadChannelVideos env fuel = crawlLoop env.fetchHistory fuel 0 := by
  simp [downloadChannelVideos, hdir, hres]

/-- Full specification of a successful pagination loop run started at
cursor `off`: the first requested cursor is `off`; between two consecutive
requested cursors the earlier one's page was non-empty and the later
cursor is the identifier of that page's oldest element (obtained through
the type assertion) and is non-zero; and at the last requested cursor the
loop stopped because the response was of another class, or the page was
empty, or the page's oldest identifier was zero. -/
lemma crawlLoop_ok_spec (fetch : Nat → Except Unit HistoryResult) :
    ∀ (fuel off : Nat) (cs : List Nat) (ds : List Document),
      crawlLoop fetch fuel off = .ok cs ds →
      cs[0]? = some off ∧
      (∀ i x y, cs[i]? = some x → cs[i + 1]? = some y →
        ∃ m ms, fetch x = .ok (.channelMessages (m :: ms)) ∧
          asMessageID ((m :: ms).getLast (List.cons_ne_nil m ms)) = some y ∧ y ≠ 0) ∧
      (∀ x, cs.getLast? = some x →
        fetch x = .ok .otherType ∨ fetch x = .ok (.channelMessages []) ∨
        ∃ m ms, fetch x = .ok (.channelMessages (m :: ms)) ∧
          asMessageID ((m :: ms).getLast (List.cons_ne_nil m ms)) = some 0) := by
  intro fuel
  induction fuel with
  | zero =>
    intro off cs ds h
    simp [crawlLoop] at h
  | succ fuel ih =>
    intro off cs ds h
    simp only [crawlLoop] at h
    cases hf : fetch off with
    | error e =>
      simp only [hf] at h
      exact CrawlOutcome.noConfusion h
    | ok r =>
      cases r with
      | otherType =>
        simp only [hf] at h
        injection h with h1 h2
        subst h1
        subst h2
        refine ⟨rfl, ?_, ?_⟩
        · intro i x y hx hy
          rcases i with _ | j <;> simp at hy
        · intro x hx
          simp at hx
          subst hx
          exact Or.inl hf
      | channelMessages msgs =>
        cases msgs with
        | nil =>
          simp only [hf] at h
          injection h with h1 h2
          subst h1
          subst h2
          refine ⟨rfl, ?_, ?_⟩
          · intro i x y hx hy
            rcases i with _ | j <;> simp at hy
          · intro x hx
            simp at hx
            subst hx
            exact Or.inr (Or.inl hf)
        | cons m ms =>
          simp only [hf] at h
          cases hasm : asMessageID ((m :: ms).getLast (List.cons_ne_nil m ms)) with
          | none =>
            simp only [hasm] at h
            exact CrawlOutcome.noConfusion h
          | some oldestID =>
            simp only [hasm] at h
            by_cases hz : oldestID = 0
            · rw [if_pos hz] at h
              injection h with h1 h2
              subst h1
              subst h2
              refine ⟨rfl, ?_, ?_⟩
              · intro i x y hx hy
                rcases i with _ | j <;> simp at hy
              · intro x hx
                simp at hx
                subst hx
                exact Or.inr (Or.inr ⟨m, ms, hf, hz ▸ hasm⟩)
            · rw [if_neg hz] at h
              cases hrec : crawlLoop fetch fuel oldestID with
              | ok cs' ds' =>
                simp only [hrec] at h
                injection h with h1 h2
                subst h1
                subst h2
                obtain ⟨hhead', hchain', hlast'⟩ := ih oldestID cs' ds' hrec
                refine ⟨by simp, ?_, ?_⟩
                · intro i x y hx hy
                  cases i with
                  | zero =>
                    rw [List.getElem?_cons_zero] at hx
                    injection hx with hx
                    subst hx
                    rw [List.getElem?_cons_succ, hhead'] at hy
                    injection hy with hy
                    subst hy
                    exact ⟨m, ms, hf, hasm, hz⟩
                  | succ j =>
                    rw [List.getElem?_cons_succ] at hx hy
                    exact hchain' j x y hx hy
                · intro x hx
                  cases cs' with
                  | nil => simp at hhead'
                  | cons hd tl =>
                    rw [List.getLast?_cons_cons] at hx
                    exact hlast' x hx
              | err e =>
                simp only [hrec] at h
                exact CrawlOutcome.noConfusion h
              | panicked =>
                simp only [hrec] at h
                exact CrawlOutcome.noConfusion h
              | fuelOut =>
                simp only [hrec] at h
                exact CrawlOutcome.noConfusion h

/-- C2: under a successful directory step and a resolution to a broadcast
channel, pagination starts at cursor 0; a first page that is empty or of
another response class ends the crawl successfully with one request, zero
downloads and no error; and on every successful crawl the first requested
cursor is 0, each following requested cursor is the identifier of the
oldest element of the previous (non-empty) page and is non-zero, and the
crawl stopped at the last cursor because its page was of another class,
or empty, or its oldest identifier was zero. -/
theorem downloadChannelVideos_pagination (env : CrawlEnv) (a b : Nat)
    (rest : List ChatEnt) (hdir : env.ensureDir = .ok ())
    (hres : env.resolve = .ok (.channel a b :: rest)) :
    (∀ fuel : Nat,
      (env.fetchHistory 0 = .ok .otherType ∨
       env.fetchHistory 0 = .ok (.channelMessages [])) →
      downloadChannelVideos env (fuel + 1) = .ok [0] []) ∧
    (∀ (fuel : Nat) (cs : List Nat) (ds : List Document),
      downloadChannelVideos env fuel = .ok cs ds →
      cs[0]? = some 0 ∧
      (∀ i x y, cs[i]? = some x → cs[i + 1]? = some y →
        ∃ m ms, env.fetchHistory x = .ok (.channelMessages (m :: ms)) ∧
          asMessageID ((m :: ms).getLast (List.cons_ne_nil m ms)) = some y ∧ y ≠ 0) ∧
      (∀ x, cs.getLast? = some x →
        env.fetchHistory x = .ok .otherType ∨
        env.fetchHistory x = .ok (.channelMessages []) ∨
        ∃ m ms, env.fetchHistory x = .ok (.channelMessages (m :: ms)) ∧
          asMessageID ((m :: ms).getLast (List.cons_ne_nil m ms)) = some 0)) := by
  constructor
  · intro fuel hfirst
    rw [crawl_resolved_eq env a b rest (fuel + 1) hdir hres]
    rcases hfirst with h | h <;> simp [crawlLoop, h]
  · intro fuel cs ds h
    rw [crawl_resolved_eq env a b rest fuel hdir hres] at h
    exact crawlLoop_ok_spec env.fetchHistory fuel 0 cs ds h

/-- A crawl environment whose first history page is empty. -/
def envEmptyFirstPage : CrawlEnv :=
  ⟨.ok (), .ok [.channel 1 2], fun _ => .ok (.channelMessages [])⟩

/-- C2 witness: the pagination theorem applied to the concrete environment
with an empty first page: one request at cursor 0, zero downloads, no
error. -/
theorem downloadChannelVideos_pagination_witness :
    downloadChannelVideos envEmptyFirstPage 1 = .ok [0] [] :=
  (downloadChannelVideos_pagination envEmptyFirstPage 1 2 [] rfl rfl).1 0 (Or.inr rfl)

/-- C9: when the oldest (last) element of a fetched non-empty page is not
an ordinary message, the unconditional type assertion in the cursor update
fails and the crawl ends in a runtime panic, not an error return. -/
theorem downloadChannelVideos_panics_on_nonmessage_oldest (env : CrawlEnv)
    (fuel a b k : Nat) (rest : List ChatEnt) (msgs : List MsgElem)
    (hdir : env.ensureDir = .ok ())
    (hres : env.resolve = .ok (.channel a b :: rest))
    (hfetch : env.fetchHistory 0 = .ok (.channelMessages msgs))
    (hlast : msgs.getLast? = some (.other k)) :
    downloadChannelVideos env (fuel + 1) = .panicked := by
  rw [crawl_resolved_eq env a b rest (fuel + 1) hdir hres]
  cases msgs with
  | nil => simp at hlast
  | cons m ms =>
    have hgl : (m :: ms).getLast (List.cons_ne_nil m ms) = .other k := by
      rw [List.getLast?_eq_getLast (m :: ms) (List.cons_ne_nil m ms)] at hlast
      exact Option.some.inj hlast
    simp [crawlLoop, hfetch, hgl, asMessageID]

/-- A crawl environment whose first page's oldest element is a service
message. -/
def envServiceOldest : CrawlEnv :=
  ⟨.ok (), .ok [.channel 1 2], fun _ => .ok (.channelMessages [.other 5])⟩

/-- C9 witness: the panic theorem applied to the concrete environment
whose page consists of one service message. -/
theorem downloadChannelVideos_panics_witness :
    downloadChannelVideos envServiceOldest 1 = .panicked :=
  downloadChannelVideos_panics_on_nonmessage_oldest envServiceOldest 0 1 2 5 [] [.other 5]
    rfl rfl rfl rfl
